import Mathlib

/-!
Verification of the Banter MCP launcher backend
(`src/launcher/src-tauri/src/main.rs`).

The Rust backend is a set of Tauri commands over the local filesystem:
it loads and saves a `LauncherConfig` JSON document, builds `ProjectChannel`
records from Unity scene paths (walking parent directories for an `Assets`
folder), validates scene paths, and edits the external `.claude.json`
MCP-server registry.

The embedding below models:
  * JSON documents as an inductive `Json` type; a file's text content is
    modelled at the parse level (`FileData.jsonText v` for text that parses
    to `v`, `FileData.rawText s` for text that is not valid JSON), since
    the source only ever manipulates parsed `serde_json::Value`s and
    `serde_json` round-trips values through `to_string_pretty`/`from_str`.
  * The filesystem as a finite map from path strings to file data plus a
    set of directories; `fs::create_dir_all` is modelled as recording the
    requested directory (intermediate ancestors are not tracked, as no
    behavior in the source depends on them).
  * Rust `std::path` operations (`parent`, `file_name`, `extension`) for
    Unix-style path strings via normalized component lists.
  * `uuid::Uuid::new_v4().to_string()` from the uuid crate's documented
    behaviour: 16 random bytes with version/variant bits forced, printed
    as lowercase hyphenated hex.  Randomness is an injected stream of
    draws in the `World` state.
-/

namespace BanterMCP

/-- JSON values, modelling `serde_json::Value`.  Objects are association
lists; all claims about objects are stated through key lookup, so the
difference with `serde_json`'s map representation (sorted or
insertion-ordered unique keys) is not observable. Numbers are modelled as
integers: the source never inspects numeric payloads. -/
inductive Json : Type where
  | null : Json
  | bool (b : Bool) : Json
  | num (n : Int) : Json
  | str (s : String) : Json
  | arr (items : List Json) : Json
  | obj (members : List (String × Json)) : Json

/-- Key lookup on a JSON value, modelling `serde_json::Value::get` with a
string index: `some` only on objects containing the key. -/
def jsonGet : Json → String → Option Json
  | .obj members, k => (members.find? (fun kv => kv.1 == k)).map (fun kv => kv.2)
  | _, _ => none

/-- Insert-or-replace on an object's member list, modelling map insertion:
the first entry with the key is replaced in place, otherwise the new entry
is appended. -/
def objSet : List (String × Json) → String → Json → List (String × Json)
  | [], k, x => [(k, x)]
  | (k', v') :: rest, k, x =>
      if k' == k then (k, x) :: rest else (k', v') :: objSet rest k x

/-- `serde_json`'s auto-vivification inside `index_mut`: a `Null` value is
replaced by an empty object before key insertion. -/
def vivifyNull : Json → Json
  | .null => .obj []
  | v => v

/-- `v[k] = x` on a `serde_json::Value`: `Null` is auto-vivified to an
object, objects get the key set, and any other value panics (modelled as
`none`). -/
def assignKey (v : Json) (k : String) (x : Json) : Option Json :=
  match vivifyNull v with
  | .obj members => some (.obj (objSet members k x))
  | _ => none

/-- `v[k1][k2] = x` on a `serde_json::Value`: the outer `index_mut`
auto-vivifies `Null` and panics on other non-objects, then dereferences the
`k1` entry (`entry(k1).or_insert(Null)`), and the inner assignment proceeds
on that slot. -/
def assignKey2 (v : Json) (k1 k2 : String) (x : Json) : Option Json :=
  match vivifyNull v with
  | .obj members =>
      let slot := ((members.find? (fun kv => kv.1 == k1)).map (fun kv => kv.2)).getD .null
      match assignKey slot k2 x with
      | some slot2 => some (.obj (objSet members k1 slot2))
      | none => none
  | _ => none

/-! ## Unix-style path model

`std::path::Path` operations used by the source, for Unix-style path
strings.  A path is an optional leading root plus a list of normalized
components: empty segments and `.` segments are dropped (a leading `.`
segment of a relative path is kept, as in `Path::components`), `..` is an
ordinary retained component. -/

/-- A parsed path: `absolute` records a leading `/`, `comps` the
normalized components. -/
structure RPath where
  absolute : Bool
  comps : List String
  deriving DecidableEq

/-- Split a character list on a separator character. -/
def splitOnChar (sep : Char) : List Char → List (List Char)
  | [] => [[]]
  | c :: cs =>
      let r := splitOnChar sep cs
      if c == sep then [] :: r
      else
        match r with
        | h :: t => (c :: h) :: t
        | [] => [[c]]

/-- Whether a path string starts with the root separator. -/
def isAbsolute (l : List Char) : Bool :=
  match l with
  | '/' :: _ => true
  | _ => false

/-- Whether a relative path string starts with a `.` current-directory
segment (which `Path::components` keeps at the front). -/
def hasLeadingCurDir (l : List Char) : Bool :=
  match l with
  | ['.'] => true
  | '.' :: '/' :: _ => true
  | _ => false

/-- Parse a Unix-style path string into root flag and normalized
components, following `Path::components`. -/
def parsePath (s : String) : RPath :=
  let l := s.data
  let segs := (splitOnChar '/' l).map (fun cs => String.mk cs)
  let comps := segs.filter (fun c => !(c == "") && !(c == "."))
  { absolute := isAbsolute l
    comps := if hasLeadingCurDir l then "." :: comps else comps }

/-- `Path::file_name`: the last component, unless it is `.` or `..` or the
path has no components. -/
def RPath.fileNameOf (p : RPath) : Option String :=
  match p.comps.getLast? with
  | none => none
  | some c => if c == "." || c == ".." then none else some c

/-- `Path::parent`: the path minus its last component; `none` for a bare
root or an empty path. -/
def RPath.parentPath (p : RPath) : Option RPath :=
  match p.comps with
  | [] => none
  | _ :: _ => some { absolute := p.absolute, comps := p.comps.dropLast }

/-- Render a parsed path back to a string (components joined by `/`, with
a leading `/` when absolute), modelling `Path::to_string_lossy` on the
paths the source constructs. -/
def joinComps : List String → List Char
  | [] => []
  | [c] => c.data
  | c :: c2 :: rest => c.data ++ '/' :: joinComps (c2 :: rest)

/-- Render a parsed path to a string. -/
def renderPath (p : RPath) : String :=
  String.mk ((if p.absolute then ['/'] else []) ++ joinComps p.comps)

/-- `Path::extension`: the portion of the file name after the last dot;
none when there is no file name, no dot, or the only dot is the leading
character of the file name. -/
def RPath.extensionOf (p : RPath) : Option String :=
  match p.fileNameOf with
  | none => none
  | some f =>
      let r := f.data.reverse
      let after := r.takeWhile (fun c => !(c == '.'))
      match r.drop after.length with
      | [] => none
      | [_] => none
      | _ :: _ :: _ => some (String.mk after.reverse)

/-- The `while let Some(dir)` loop of `add_channel`, walking the parent
chain: a directory whose file name is `Assets` stops the walk and yields
its own parent. -/
def assetsWalkComps (absolute : Bool) : List String → Option RPath
  | [] => none
  | c :: cs =>
      if RPath.fileNameOf ⟨absolute, c :: cs⟩ = some "Assets" then
        RPath.parentPath ⟨absolute, c :: cs⟩
      else
        assetsWalkComps absolute (c :: cs).dropLast
  termination_by l => l.length
  decreasing_by simp [List.length_dropLast]

/-- The walk started from an optional directory, as in the source where the
loop starts at `scene_file.parent()`. -/
def assetsWalk : Option RPath → Option RPath
  | none => none
  | some dir => assetsWalkComps dir.absolute dir.comps

/-- Index, counted from the *end* of the list, of the entry nearest the end
that equals `"Assets"` (`0` = the last entry). -/
def idxOfAssets : List String → Option Nat
  | [] => none
  | c :: cs => if c == "Assets" then some 0 else (idxOfAssets cs).map (· + 1)

/-- Specification-side Unity project root, from the spec's words: among the
ancestor directories of the scene (the proper prefixes of the directory
component list), the *nearest* one named `Assets` is the longest prefix
ending in `"Assets"`; the project root is that prefix minus its final
`"Assets"` component. -/
def specAssetsProject (absolute : Bool) (dirComps : List String) : Option RPath :=
  match idxOfAssets dirComps.reverse with
  | some k => some ⟨absolute, dirComps.take (dirComps.length - k - 1)⟩
  | none => none

/-! ## String helpers used by `validate_unity_scene` -/

/-- Boolean list prefix test. -/
def isPrefB : List Char → List Char → Bool
  | [], _ => true
  | _ :: _, [] => false
  | a :: as, b :: bs => a == b && isPrefB as bs

/-- Boolean list infix test. -/
def isInfB (pat : List Char) : List Char → Bool
  | [] => isPrefB pat []
  | l@(_ :: rest) => isPrefB pat l || isInfB pat rest

/-- `str::contains` with a literal pattern. -/
def strContains (s pat : String) : Bool :=
  isInfB pat.data s.data

/-- `path.replace("\\", "/")`: every backslash character becomes a forward
slash (the pattern is a single character, so `str::replace` is a character
map). -/
def normalizeSeps (s : String) : String :=
  String.mk (s.data.map (fun c => if c == '\\' then '/' else c))

/-! ## UUID v4 string formatting

Model of `uuid::Uuid::new_v4().to_string()`: sixteen random bytes with the
version nibble forced to `4` and the variant bits forced to `10`, printed
as lowercase hyphenated hex in byte order. -/

/-- Lowercase hex digit. -/
def hexChar : Nat → Char
  | 0 => '0' | 1 => '1' | 2 => '2' | 3 => '3'
  | 4 => '4' | 5 => '5' | 6 => '6' | 7 => '7'
  | 8 => '8' | 9 => '9' | 10 => 'a' | 11 => 'b'
  | 12 => 'c' | 13 => 'd' | 14 => 'e' | 15 => 'f'
  | _ => 'x'

/-- Two lowercase hex digits of a byte. -/
def byteHex (b : Nat) : List Char :=
  [hexChar (b / 16 % 16), hexChar (b % 16)]

/-- Byte `i` (big-endian, `0 ≤ i ≤ 15`) of a 128-bit draw. -/
def byteOf (r i : Nat) : Nat :=
  r / 256 ^ (15 - i) % 256

/-- Version/variant masking of uuid v4: byte 6 keeps its low nibble under
version `4` (`0x4?`), byte 8 keeps its low six bits under variant `10`
(`0x8?`–`0xb?`). -/
def maskByte (i b : Nat) : Nat :=
  if i == 6 then b % 16 + 64
  else if i == 8 then b % 64 + 128
  else b

/-- Masked byte `i` of the draw `r`. -/
def uuidByte (r i : Nat) : Nat :=
  maskByte i (byteOf r i)

/-- The hyphenated lowercase-hex uuid v4 string of the 128-bit draw `r`. -/
def uuidV4 (r : Nat) : String :=
  String.mk
    (byteHex (uuidByte r 0) ++ byteHex (uuidByte r 1) ++
     byteHex (uuidByte r 2) ++ byteHex (uuidByte r 3) ++ '-' ::
     (byteHex (uuidByte r 4) ++ byteHex (uuidByte r 5) ++ '-' ::
      (byteHex (uuidByte r 6) ++ byteHex (uuidByte r 7) ++ '-' ::
       (byteHex (uuidByte r 8) ++ byteHex (uuidByte r 9) ++ '-' ::
        (byteHex (uuidByte r 10) ++ byteHex (uuidByte r 11) ++
         byteHex (uuidByte r 12) ++ byteHex (uuidByte r 13) ++
         byteHex (uuidByte r 14) ++ byteHex (uuidByte r 15))))))

/-- The masked 128-bit value actually encoded in the uuid string. -/
def uuidMask (r : Nat) : Nat :=
  uuidByte r 0 * 256 ^ 15 + uuidByte r 1 * 256 ^ 14 +
  uuidByte r 2 * 256 ^ 13 + uuidByte r 3 * 256 ^ 12 +
  uuidByte r 4 * 256 ^ 11 + uuidByte r 5 * 256 ^ 10 +
  uuidByte r 6 * 256 ^ 9 + uuidByte r 7 * 256 ^ 8 +
  uuidByte r 8 * 256 ^ 7 + uuidByte r 9 * 256 ^ 6 +
  uuidByte r 10 * 256 ^ 5 + uuidByte r 11 * 256 ^ 4 +
  uuidByte r 12 * 256 ^ 3 + uuidByte r 13 * 256 ^ 2 +
  uuidByte r 14 * 256 ^ 1 + uuidByte r 15

/-! ## Launcher data model and its serde encoding -/

/-- A scene channel configuration (`struct ProjectChannel`). -/
structure ProjectChannel where
  id : String
  name : String
  unity_project_path : String
  scene_path : Option String
  enabled : Bool
  deriving DecidableEq

/-- Full launcher configuration (`struct LauncherConfig`). -/
structure LauncherConfig where
  channels : List ProjectChannel
  active_channel_id : Option String
  mcp_server_path : String
  auto_start : Bool
  deriving DecidableEq

/-- Derived `Serialize` for `ProjectChannel`: fields in declaration order,
`Option` as null-or-value. -/
def projectChannelToJson (c : ProjectChannel) : Json :=
  .obj [("id", .str c.id), ("name", .str c.name),
        ("unity_project_path", .str c.unity_project_path),
        ("scene_path", match c.scene_path with | none => .null | some s => .str s),
        ("enabled", .bool c.enabled)]

/-- Derived `Serialize` for `LauncherConfig`. -/
def launcherConfigToJson (c : LauncherConfig) : Json :=
  .obj [("channels", .arr (c.channels.map projectChannelToJson)),
        ("active_channel_id",
          match c.active_channel_id with | none => .null | some s => .str s),
        ("mcp_server_path", .str c.mcp_server_path),
        ("auto_start", .bool c.auto_start)]

/-- A JSON string value. -/
def jsonAsStr : Json → Option String
  | .str s => some s
  | _ => none

/-- A JSON boolean value. -/
def jsonAsBool : Json → Option Bool
  | .bool b => some b
  | _ => none

/-- Derived `Deserialize` for an `Option<String>` value: null or string. -/
def jsonAsOptStr : Json → Option (Option String)
  | .null => some none
  | .str s => some (some s)
  | _ => none

/-- Field lookup in an object's member list. -/
def getField (members : List (String × Json)) (k : String) : Option Json :=
  (members.find? (fun kv => kv.1 == k)).map (fun kv => kv.2)

/-- Derived `Deserialize` behaviour for an `Option<String>` field: a
missing field is `None`; a present field must be null or a string. -/
def getOptStrField (members : List (String × Json)) (k : String) : Option (Option String) :=
  match getField members k with
  | none => some none
  | some v => jsonAsOptStr v

/-- Derived `Deserialize` for `ProjectChannel` (`none` = parse error). -/
def projectChannelFromJson : Json → Option ProjectChannel
  | .obj members => do
      let id ← (getField members "id").bind jsonAsStr
      let name ← (getField members "name").bind jsonAsStr
      let upp ← (getField members "unity_project_path").bind jsonAsStr
      let sp ← getOptStrField members "scene_path"
      let en ← (getField members "enabled").bind jsonAsBool
      some ⟨id, name, upp, sp, en⟩
  | _ => none

/-- Deserialize a sequence of channels elementwise (as `serde` does for a
`Vec`, failing on the first bad element). -/
def channelsFromJsonList : List Json → Option (List ProjectChannel)
  | [] => some []
  | v :: vs => do
      let c ← projectChannelFromJson v
      let cs ← channelsFromJsonList vs
      some (c :: cs)

/-- Deserialize a JSON array of channels. -/
def jsonAsChannels : Json → Option (List ProjectChannel)
  | .arr items => channelsFromJsonList items
  | _ => none

/-- Derived `Deserialize` for `LauncherConfig` (`none` = parse error). -/
def launcherConfigFromJson : Json → Option LauncherConfig
  | .obj members => do
      let channels ← (getField members "channels").bind jsonAsChannels
      let aci ← getOptStrField members "active_channel_id"
      let msp ← (getField members "mcp_server_path").bind jsonAsStr
      let as ← (getField members "auto_start").bind jsonAsBool
      some ⟨channels, aci, msp, as⟩
  | _ => none

/-! ## Filesystem and world state -/

/-- The content of a file, at the JSON parse level: `jsonText v` stands for
text that parses to the JSON value `v` (as serialization produces),
`rawText s` for text that is not valid JSON. -/
inductive FileData : Type where
  | jsonText (v : Json) : FileData
  | rawText (s : String) : FileData

/-- The filesystem: a finite map from path strings to file contents, plus
the set of directories. -/
structure FileSys where
  files : List (String × FileData)
  dirs : List String

/-- `Path::exists`: true for files and directories. -/
def FileSys.existsPath (fs : FileSys) (p : String) : Bool :=
  fs.files.any (fun f => f.1 == p) || fs.dirs.contains p

/-- `fs::read_to_string` of an existing file. -/
def FileSys.readFile (fs : FileSys) (p : String) : Option FileData :=
  (fs.files.find? (fun f => f.1 == p)).map (fun f => f.2)

/-- `fs::write`: create or overwrite. -/
def FileSys.writeFile (fs : FileSys) (p : String) (d : FileData) : FileSys :=
  { fs with files := (p, d) :: fs.files.filter (fun f => !(f.1 == p)) }

/-- `fs::create_dir_all`: record the requested directory (ancestor
creation is not tracked; nothing in the source observes it). -/
def FileSys.createDirAll (fs : FileSys) (p : String) : FileSys :=
  { fs with dirs := p :: fs.dirs }

/-- The world a command runs in: the filesystem, the host-determined
per-user directories (`dirs::config_dir()` with its `"."` fallback already
applied, and `dirs::home_dir()` likewise), and the stream of 128-bit
random draws backing `Uuid::new_v4` with the count of draws consumed. -/
structure World where
  fs : FileSys
  configDir : String
  homeDir : String
  rand : Nat → Nat
  rcount : Nat

/-! ## The commands -/

/-- The launcher's own config directory, `config_dir.join("banter-mcp")`. -/
def banterConfigDir (w : World) : String :=
  w.configDir ++ "/banter-mcp"

/-- `get_config_path`: creates the config directory (ignoring errors) and
returns the `launcher-config.json` path inside it. -/
def get_config_path (w : World) : String × World :=
  (banterConfigDir w ++ "/launcher-config.json",
   { w with fs := w.fs.createDirAll (banterConfigDir w) })

/-- `load_config`: default value when the file is missing, otherwise read
and parse. -/
def load_config (w : World) : Except String LauncherConfig × World :=
  let pw := get_config_path w
  let p := pw.1
  let w1 := pw.2
  if w1.fs.existsPath p then
    match w1.fs.readFile p with
    | none => (.error ("Failed to read config: " ++ p), w1)
    | some (.rawText s) => (.error ("Failed to parse config: " ++ s), w1)
    | some (.jsonText v) =>
        match launcherConfigFromJson v with
        | none => (.error "Failed to parse config: schema mismatch", w1)
        | some c => (.ok c, w1)
  else
    (.ok { channels := []
           active_channel_id := none
           mcp_server_path := "C:/tools/banter-mcp/dist/index.js"
           auto_start := false }, w1)

/-- `save_config`: serialize pretty-printed and overwrite the file. -/
def save_config (config : LauncherConfig) (w : World) : Except String Unit × World :=
  let pw := get_config_path w
  let p := pw.1
  let w1 := pw.2
  (.ok (), { w1 with fs := w1.fs.writeFile p (.jsonText (launcherConfigToJson config)) })

/-- `add_channel`: existence check, `.unity` extension check, `Assets`
ancestor walk, then a fresh channel with a new uuid id. -/
def add_channel (name scene_path : String) (w : World) :
    Except String ProjectChannel × World :=
  let scene_file := parsePath scene_path
  if !(w.fs.existsPath scene_path) then
    (.error ("Scene file does not exist: " ++ scene_path), w)
  else if scene_file.extensionOf ≠ some "unity" then
    (.error "Not a valid Unity scene file (must be .unity)", w)
  else
    match assetsWalk scene_file.parentPath with
    | none => (.error "Could not find Unity project root (no Assets folder in path)", w)
    | some proj =>
        let channel : ProjectChannel :=
          { id := uuidV4 (w.rand w.rcount)
            name := name
            unity_project_path := renderPath proj
            scene_path := some scene_path
            enabled := true }
        (.ok channel, { w with rcount := w.rcount + 1 })

/-- `validate_unity_scene`: false for a missing path or wrong extension,
otherwise the `/Assets/` substring check on the separator-normalized
string. -/
def validate_unity_scene (path : String) (w : World) : Except String Bool :=
  let scene_path := parsePath path
  if !(w.fs.existsPath path) then
    .ok false
  else if scene_path.extensionOf ≠ some "unity" then
    .ok false
  else
    .ok (strContains (normalizeSeps path) "/Assets/")

/-- `get_claude_config_path`: `home_dir.join(".claude.json")`. -/
def claudeConfigPath (w : World) : String :=
  w.homeDir ++ "/.claude.json"

/-- The `env` object of the `banter` registry entry: `UNITY_PROJECT_PATH`
always, `UNITY_SCENE_PATH` when the channel has a scene (set through the
`serde_json` index operator, which cannot fail on this object but is
modelled faithfully). -/
def banterEnv (channel : ProjectChannel) : Option Json :=
  let env : Json := .obj [("UNITY_PROJECT_PATH", .str channel.unity_project_path)]
  match channel.scene_path with
  | some scene => assignKey env "UNITY_SCENE_PATH" (.str scene)
  | none => some env

/-- The pure document transformation of `update_claude_mcp_config`:
ensure `mcpServers` exists, then set `mcpServers.banter`.  `none` models a
panic of the `serde_json` index operator. -/
def updateDoc (config0 : Json) (channel : ProjectChannel) (mcp_server_path : String) :
    Option Json := do
  let config ←
    if (jsonGet config0 "mcpServers").isNone then
      assignKey config0 "mcpServers" (.obj [])
    else
      some config0
  let env ← banterEnv channel
  assignKey2 config "mcpServers" "banter"
    (.obj [("command", .str "node"),
           ("args", .arr [.str mcp_server_path]),
           ("env", env)])

/-- Outcome of `update_claude_mcp_config`: normal return (`ok`/`err`, with
the resulting world) or a panic. -/
inductive McpOutcome : Type where
  | ok (w : World) : McpOutcome
  | err (msg : String) (w : World) : McpOutcome
  | panicked : McpOutcome

/-- Whether the outcome is a panic. -/
def McpOutcome.isPanic : McpOutcome → Bool
  | .panicked => true
  | _ => false

/-- `update_claude_mcp_config`: read the document (substituting an empty
object when the content is not valid JSON, per `unwrap_or`), apply the
`banter` upsert, and write back pretty-printed. -/
def update_claude_mcp_config (channel : ProjectChannel) (mcp_server_path : String)
    (w : World) : McpOutcome :=
  let p := claudeConfigPath w
  let config0 : Except String Json :=
    if w.fs.existsPath p then
      match w.fs.readFile p with
      | none => .error ("Failed to read Claude config: " ++ p)
      | some (.jsonText v) => .ok v
      | some (.rawText _) => .ok (.obj [])
    else
      .ok (.obj [])
  match config0 with
  | .error e => .err e w
  | .ok config0 =>
      match updateDoc config0 channel mcp_server_path with
      | none => .panicked
      | some config =>
          .ok { w with fs := w.fs.writeFile p (.jsonText config) }

/-- The pure document transformation of `remove_claude_mcp_config`: if the
document is an object whose `mcpServers` member is an object, remove its
`banter` entry; otherwise leave the document unchanged. -/
def removeBanter (v : Json) : Json :=
  match v with
  | .obj members =>
      match members.find? (fun kv => kv.1 == "mcpServers") with
      | some (_, .obj inner) =>
          .obj (objSet members "mcpServers"
                 (.obj (inner.filter (fun kv => !(kv.1 == "banter")))))
      | _ => v
  | _ => v

/-- `remove_claude_mcp_config`: success when the file is missing; a parse
error when the content is invalid JSON; otherwise delete
`mcpServers.banter` and write the document back. -/
def remove_claude_mcp_config (w : World) : Except String Unit × World :=
  let p := claudeConfigPath w
  if !(w.fs.existsPath p) then
    (.ok (), w)
  else
    match w.fs.readFile p with
    | none => (.error ("Failed to read Claude config: " ++ p), w)
    | some (.rawText s) => (.error ("Failed to parse Claude config: " ++ s), w)
    | some (.jsonText v) =>
        (.ok (), { w with fs := w.fs.writeFile p (.jsonText (removeBanter v)) })

/-! ## Claim-side definitions and concrete worlds -/

/-- The expected `env` object of the registry entry, from the spec's words:
`UNITY_PROJECT_PATH` always, plus `UNITY_SCENE_PATH` when the channel has a
scene path. -/
def banterEnvJson (channel : ProjectChannel) : Json :=
  match channel.scene_path with
  | none => .obj [("UNITY_PROJECT_PATH", .str channel.unity_project_path)]
  | some s => .obj [("UNITY_PROJECT_PATH", .str channel.unity_project_path),
                    ("UNITY_SCENE_PATH", .str s)]

/-- The expected `mcpServers.banter` entry, from the spec's words:
`{ command: "node", args: [mcp_server_path], env: ... }`. -/
def banterEntryJson (channel : ProjectChannel) (msp : String) : Json :=
  .obj [("command", .str "node"),
        ("args", .arr [.str msp]),
        ("env", banterEnvJson channel)]

/-- Documents on which the `banter` upsert cannot hit a `serde_json`
index-operator panic: null, or an object whose `mcpServers` member (when
present) is null or an object. -/
def updateDocSafe : Json → Bool
  | .null => true
  | .obj members =>
      match (members.find? (fun kv => kv.1 == "mcpServers")).map (fun kv => kv.2) with
      | none => true
      | some Json.null => true
      | some (Json.obj _) => true
      | some _ => false
  | _ => false

/-- A channel value used in concrete instantiations. -/
def sampleChannel : ProjectChannel :=
  { id := "cid", name := "ch", unity_project_path := "/proj",
    scene_path := none, enabled := true }

/-- A world with a single scene file in the spec's example layout. -/
def exampleWorld : World :=
  { fs := { files := [("/proj/Assets/Scenes/Main.unity", .rawText "scene")], dirs := [] }
    configDir := "/cfg", homeDir := "/h", rand := fun _ => 0, rcount := 0 }

/-- A world with an empty filesystem. -/
def emptyWorld : World :=
  { fs := { files := [], dirs := [] }
    configDir := "/cfg", homeDir := "/h", rand := fun _ => 0, rcount := 0 }

/-- A world whose external registry file parses to the number `5`. -/
def numberDocWorld : World :=
  { fs := { files := [("/h/.claude.json", .jsonText (.num 5))], dirs := [] }
    configDir := "/cfg", homeDir := "/h", rand := fun _ => 0, rcount := 0 }

/-- A world with a scene file directly under a top-level relative `Assets`
directory. -/
def relAssetsWorld : World :=
  { fs := { files := [("Assets/Main.unity", .rawText "scene")], dirs := [] }
    configDir := "/cfg", homeDir := "/h", rand := fun _ => 0, rcount := 0 }

/-- A registry document holding unrelated keys next to `mcpServers`. -/
def regDoc : Json :=
  .obj [("otherSetting", .bool true),
        ("mcpServers", .obj [("other-tool", .num 1)])]

/-- A world whose external registry holds unrelated keys next to
`mcpServers`. -/
def registryWorld : World :=
  { fs := { files := [("/h/.claude.json", .jsonText regDoc)], dirs := [] }
    configDir := "/cfg", homeDir := "/h", rand := fun _ => 0, rcount := 0 }

/-- The world after a successful banter upsert on `registryWorld`. -/
def registryWorldAfter : World :=
  { registryWorld with
    fs := registryWorld.fs.writeFile "/h/.claude.json"
      (.jsonText (.obj [("otherSetting", .bool true),
                        ("mcpServers",
                          .obj [("other-tool", .num 1),
                                ("banter",
                                  banterEntryJson sampleChannel "/mcp/index.js")])])) }

/-- A world with a `.scene` file and a `.unity` file outside any `Assets`
directory. -/
def noAssetsWorld : World :=
  { fs := { files := [("/a/b.scene", .rawText "s"), ("/a/b.unity", .rawText "s")],
            dirs := [] }
    configDir := "/cfg", homeDir := "/h", rand := fun _ => 0, rcount := 0 }

/-- A world whose external registry file does not parse as JSON. -/
def rawRegistryWorld : World :=
  { fs := { files := [("/h/.claude.json", .rawText "oops")], dirs := [] }
    configDir := "/cfg", homeDir := "/h", rand := fun _ => 0, rcount := 0 }

/-! ## Association-list lemmas -/

theorem find?_objSet_self (l : List (String × Json)) (k : String) (x : Json) :
    (objSet l k x).find? (fun kv => kv.1 == k) = some (k, x) := by
  induction l with
  | nil => simp [objSet]
  | cons hd tl ih =>
      obtain ⟨k', v'⟩ := hd
      by_cases h : k' = k
      · simp [objSet, h]
      · simp [objSet, h, ih]

theorem find?_objSet_ne (l : List (String × Json)) (k k' : String) (x : Json)
    (h : k' ≠ k) :
    (objSet l k x).find? (fun kv => kv.1 == k') = l.find? (fun kv => kv.1 == k') := by
  have hk : (k == k') = false := by simp [Ne.symm h]
  induction l with
  | nil => simp [objSet, hk]
  | cons hd tl ih =>
      obtain ⟨k1, v1⟩ := hd
      by_cases h1 : k1 = k
      · subst h1
        simp [objSet, hk]
      · by_cases h2 : k1 = k'
        · subst h2
          simp [objSet, h1]
        · simp [objSet, h1, h2, ih]

theorem jsonGet_objSet_self (l : List (String × Json)) (k : String) (x : Json) :
    jsonGet (.obj (objSet l k x)) k = some x := by
  simp [jsonGet, find?_objSet_self]

theorem jsonGet_objSet_ne (l : List (String × Json)) (k k' : String) (x : Json)
    (h : k' ≠ k) :
    jsonGet (.obj (objSet l k x)) k' = jsonGet (.obj l) k' := by
  simp [jsonGet, find?_objSet_ne l k k' x h]

theorem find?_filter_ne (l : List (String × Json)) (k0 k : String) (h : k ≠ k0) :
    (l.filter (fun kv => !(kv.1 == k0))).find? (fun kv => kv.1 == k)
      = l.find? (fun kv => kv.1 == k) := by
  induction l with
  | nil => rfl
  | cons hd tl ih =>
      obtain ⟨k1, v1⟩ := hd
      by_cases h1 : k1 = k0
      · have hno : (k1 == k) = false := by
          have : k1 ≠ k := by
            rw [h1]
            exact Ne.symm h
          simp [this]
        have hdrop : (!(k1 == k0)) = false := by simp [h1]
        simp [List.filter_cons, hdrop, List.find?_cons, hno, ih]
      · by_cases h2 : k1 = k
        · subst h2
          simp [h1]
        · simp [h1, h2, ih]

theorem filter_eq_self_of_find?_none (l : List (String × Json)) (k0 : String)
    (h : l.find? (fun kv => kv.1 == k0) = none) :
    l.filter (fun kv => !(kv.1 == k0)) = l := by
  induction l with
  | nil => rfl
  | cons hd tl ih =>
      obtain ⟨k1, v1⟩ := hd
      by_cases h1 : k1 = k0
      · subst h1
        simp at h
      · simp only [List.filter_cons]
        have hkeep : (!(k1 == k0)) = true := by simp [h1]
        simp only [hkeep, if_true]
        have htl : tl.find? (fun kv => kv.1 == k0) = none := by
          have hne : (k1 == k0) = false := by simp [h1]
          simpa [List.find?_cons, hne] using h
        rw [ih htl]

theorem objSet_find?_self (l : List (String × Json)) (k : String) (v : Json)
    (h : l.find? (fun kv => kv.1 == k) = some (k, v)) :
    objSet l k v = l := by
  induction l with
  | nil => simp at h
  | cons hd tl ih =>
      obtain ⟨k1, v1⟩ := hd
      by_cases h1 : k1 = k
      · subst h1
        simp at h
        simp [objSet, h]
      · simp [h1] at h
        simp [objSet, h1, ih h]

/-! ## Serde round-trip lemmas -/

theorem projectChannelFromJson_toJson (c : ProjectChannel) :
    projectChannelFromJson (projectChannelToJson c) = some c := by
  obtain ⟨id, name, upp, sp, en⟩ := c
  cases sp <;> rfl

theorem channelsFromJsonList_map_toJson (cs : List ProjectChannel) :
    channelsFromJsonList (cs.map projectChannelToJson) = some cs := by
  induction cs with
  | nil => rfl
  | cons c cs ih =>
      simp [channelsFromJsonList, projectChannelFromJson_toJson, ih]

theorem launcherConfigFromJson_toJson (c : LauncherConfig) :
    launcherConfigFromJson (launcherConfigToJson c) = some c := by
  obtain ⟨chs, aci, msp, as⟩ := c
  cases aci <;>
    simp [launcherConfigToJson, launcherConfigFromJson, getField, getOptStrField,
          jsonAsChannels, jsonAsStr, jsonAsBool, jsonAsOptStr,
          channelsFromJsonList_map_toJson]

/-! ## Filesystem lemmas -/

theorem existsPath_of_readFile (fs : FileSys) (p : String) (d : FileData)
    (h : fs.readFile p = some d) : fs.existsPath p = true := by
  unfold FileSys.readFile at h
  unfold FileSys.existsPath
  obtain ⟨e, he, hp⟩ : ∃ e, fs.files.find? (fun f => f.1 == p) = some e ∧ e.2 = d := by
    cases hf : fs.files.find? (fun f => f.1 == p) with
    | none => simp [hf] at h
    | some e => exact ⟨e, rfl, by simpa [hf] using h⟩
  have hmem := List.mem_of_find?_eq_some he
  have hpred := List.find?_some he
  simp only [Bool.or_eq_true, List.any_eq_true]
  exact Or.inl ⟨e, hmem, hpred⟩

theorem readFile_writeFile_self (fs : FileSys) (p : String) (d : FileData) :
    (fs.writeFile p d).readFile p = some d := by
  simp [FileSys.writeFile, FileSys.readFile]

theorem existsPath_writeFile_self (fs : FileSys) (p : String) (d : FileData) :
    (fs.writeFile p d).existsPath p = true := by
  simp [FileSys.writeFile, FileSys.existsPath]


/-! ## Equivalence of the `Assets` walk with its specification -/

theorem idxOfAssets_eq_none_iff (l : List String) :
    idxOfAssets l = none ↔ "Assets" ∉ l := by
  induction l with
  | nil => simp [idxOfAssets]
  | cons c cs ih =>
      by_cases h : c = "Assets"
      · simp [idxOfAssets, h]
      · have hc : (c == "Assets") = false := by simp [h]
        constructor
        · intro hnone
          have hcs : "Assets" ∉ cs := by
            rw [← ih]
            simpa [idxOfAssets, hc] using hnone
          simp [List.mem_cons, hcs]
          exact fun e => h e.symm
        · intro hmem
          have hcs : "Assets" ∉ cs := fun hx => hmem (List.mem_cons_of_mem _ hx)
          simp [idxOfAssets, hc, ih.mpr hcs]

theorem idxOfAssets_lt_length (l : List String) (k : Nat)
    (h : idxOfAssets l = some k) : k < l.length := by
  induction l generalizing k with
  | nil => simp [idxOfAssets] at h
  | cons c cs ih =>
      by_cases hc : c = "Assets"
      · simp [idxOfAssets, hc] at h
        simp [List.length_cons]
        omega
      · simp [idxOfAssets, hc] at h
        obtain ⟨k', hk', rfl⟩ := h
        have := ih k' hk'
        simp [List.length_cons]
        omega

theorem assetsWalkComps_eq_spec (absolute : Bool) (l : List String) :
    assetsWalkComps absolute l = specAssetsProject absolute l := by
  induction l using List.reverseRecOn with
  | nil => simp [assetsWalkComps, specAssetsProject, idxOfAssets]
  | append_singleton l' a ih =>
      have hne : l' ++ [a] ≠ [] := by simp
      have hlast : (l' ++ [a]).getLast? = some a := List.getLast?_concat l'
      have hdrop : (l' ++ [a]).dropLast = l' := List.dropLast_concat
      have hrev : (l' ++ [a]).reverse = a :: l'.reverse := by simp
      obtain ⟨c, cs, hcc⟩ : ∃ c cs, l' ++ [a] = c :: cs := by
        cases hl : l' ++ [a] with
        | nil => exact absurd hl hne
        | cons c cs => exact ⟨c, cs, rfl⟩
      by_cases ha : a = "Assets"
      · subst ha
        have hname : RPath.fileNameOf ⟨absolute, l' ++ ["Assets"]⟩ = some "Assets" := by
          unfold RPath.fileNameOf
          rw [hlast]
          rfl
        have hname' : RPath.fileNameOf ⟨absolute, c :: cs⟩ = some "Assets" := hcc ▸ hname
        have hwalk : assetsWalkComps absolute (l' ++ ["Assets"])
            = RPath.parentPath ⟨absolute, l' ++ ["Assets"]⟩ := by
          rw [hcc]
          rw [assetsWalkComps, if_pos hname', ← hcc]
        rw [hwalk]
        have hidx : idxOfAssets ((l' ++ ["Assets"]).reverse) = some 0 := by
          rw [hrev]
          simp [idxOfAssets]
        unfold specAssetsProject
        simp only [hidx]
        have hlen : (l' ++ ["Assets"]).length - 0 - 1 = l'.length := by
          simp
        rw [hlen, List.take_left]
        rw [hcc]
        unfold RPath.parentPath
        simp only []
        rw [← hcc, hdrop]
      · have hname : RPath.fileNameOf ⟨absolute, l' ++ [a]⟩ ≠ some "Assets" := by
          unfold RPath.fileNameOf
          rw [hlast]
          by_cases hdot : (a == "." || a == "..") = true
          · simp [hdot]
          · simp only [Bool.not_eq_true] at hdot
            simp [hdot, ha]
        have hname' : RPath.fileNameOf ⟨absolute, c :: cs⟩ ≠ some "Assets" := hcc ▸ hname
        have hwalk : assetsWalkComps absolute (l' ++ [a])
            = assetsWalkComps absolute l' := by
          rw [hcc]
          rw [assetsWalkComps, if_neg hname', ← hcc, hdrop]
        rw [hwalk, ih]
        unfold specAssetsProject
        rw [hrev]
        have hhead : (a == "Assets") = false := by simp [ha]
        have hidxcons : idxOfAssets (a :: l'.reverse)
            = (idxOfAssets l'.reverse).map (· + 1) := by
          simp [idxOfAssets, hhead]
        rw [hidxcons]
        cases hidx : idxOfAssets l'.reverse with
        | none => simp
        | some k =>
            simp only [Option.map_some']
            have hk : k < l'.length := by
              have h1 := idxOfAssets_lt_length l'.reverse k hidx
              simpa using h1
            have harith : (l' ++ [a]).length - (k + 1) - 1 = l'.length - k - 1 := by
              simp [List.length_append]
            have htake : (l' ++ [a]).take (l'.length - k - 1)
                = l'.take (l'.length - k - 1) :=
              List.take_append_of_le_length (by omega)
            rw [harith, htake]

theorem assetsWalk_parentPath_eq_spec (p : RPath) (h : p.comps ≠ []) :
    assetsWalk p.parentPath = specAssetsProject p.absolute p.comps.dropLast := by
  obtain ⟨absolute, comps⟩ := p
  simp only [] at h ⊢
  cases comps with
  | nil => exact absurd rfl h
  | cons c cs =>
      simp only [RPath.parentPath, assetsWalk]
      exact assetsWalkComps_eq_spec absolute ((c :: cs).dropLast)

/-! ## UUID string lemmas -/

theorem uuidV4_ne_empty (r : Nat) : uuidV4 r ≠ "" := by
  simp [uuidV4, byteHex, String.ext_iff]

theorem hexChar_inj_fin : ∀ a b : Fin 16, hexChar a.val = hexChar b.val → a = b := by
  decide

theorem hexChar_inj (a b : Nat) (ha : a < 16) (hb : b < 16)
    (h : hexChar a = hexChar b) : a = b := by
  have := hexChar_inj_fin ⟨a, ha⟩ ⟨b, hb⟩ h
  simpa [Fin.mk.injEq] using this

theorem uuidByte_lt (r i : Nat) : uuidByte r i < 256 := by
  have h256 : r / 256 ^ (15 - i) % 256 < 256 := Nat.mod_lt _ (by norm_num)
  have h16 : r / 256 ^ (15 - i) % 256 % 16 < 16 := Nat.mod_lt _ (by norm_num)
  have h64 : r / 256 ^ (15 - i) % 256 % 64 < 64 := Nat.mod_lt _ (by norm_num)
  unfold uuidByte maskByte byteOf
  split
  · omega
  · split <;> omega

theorem uuid_byte_eq_of_hex (x y : Nat) (hx : x < 256) (hy : y < 256)
    (h1 : hexChar (x / 16 % 16) = hexChar (y / 16 % 16))
    (h2 : hexChar (x % 16) = hexChar (y % 16)) : x = y := by
  have e1 := hexChar_inj _ _ (Nat.mod_lt _ (by norm_num)) (Nat.mod_lt _ (by norm_num)) h1
  have e2 := hexChar_inj _ _ (Nat.mod_lt _ (by norm_num)) (Nat.mod_lt _ (by norm_num)) h2
  omega

theorem uuidV4_inj_mask (r r3 : Nat) (h : uuidV4 r = uuidV4 r3) :
    uuidMask r = uuidMask r3 := by
  have hd : (uuidV4 r).data = (uuidV4 r3).data := congrArg String.data h
  have key : ∀ i, (uuidV4 r).data.get? i = (uuidV4 r3).data.get? i :=
    fun i => congrArg (fun l => List.get? l i) hd
  have a0 : hexChar (uuidByte r 0 / 16 % 16) = hexChar (uuidByte r3 0 / 16 % 16) :=
    Option.some.inj (key 0)
  have b0 : hexChar (uuidByte r 0 % 16) = hexChar (uuidByte r3 0 % 16) :=
    Option.some.inj (key 1)
  have e0 := uuid_byte_eq_of_hex _ _ (uuidByte_lt r 0) (uuidByte_lt r3 0) a0 b0
  have a1 : hexChar (uuidByte r 1 / 16 % 16) = hexChar (uuidByte r3 1 / 16 % 16) :=
    Option.some.inj (key 2)
  have b1 : hexChar (uuidByte r 1 % 16) = hexChar (uuidByte r3 1 % 16) :=
    Option.some.inj (key 3)
  have e1 := uuid_byte_eq_of_hex _ _ (uuidByte_lt r 1) (uuidByte_lt r3 1) a1 b1
  have a2 : hexChar (uuidByte r 2 / 16 % 16) = hexChar (uuidByte r3 2 / 16 % 16) :=
    Option.some.inj (key 4)
  have b2 : hexChar (uuidByte r 2 % 16) = hexChar (uuidByte r3 2 % 16) :=
    Option.some.inj (key 5)
  have e2 := uuid_byte_eq_of_hex _ _ (uuidByte_lt r 2) (uuidByte_lt r3 2) a2 b2
  have a3 : hexChar (uuidByte r 3 / 16 % 16) = hexChar (uuidByte r3 3 / 16 % 16) :=
    Option.some.inj (key 6)
  have b3 : hexChar (uuidByte r 3 % 16) = hexChar (uuidByte r3 3 % 16) :=
    Option.some.inj (key 7)
  have e3 := uuid_byte_eq_of_hex _ _ (uuidByte_lt r 3) (uuidByte_lt r3 3) a3 b3
  have a4 : hexChar (uuidByte r 4 / 16 % 16) = hexChar (uuidByte r3 4 / 16 % 16) :=
    Option.some.inj (key 9)
  have b4 : hexChar (uuidByte r 4 % 16) = hexChar (uuidByte r3 4 % 16) :=
    Option.some.inj (key 10)
  have e4 := uuid_byte_eq_of_hex _ _ (uuidByte_lt r 4) (uuidByte_lt r3 4) a4 b4
  have a5 : hexChar (uuidByte r 5 / 16 % 16) = hexChar (uuidByte r3 5 / 16 % 16) :=
    Option.some.inj (key 11)
  have b5 : hexChar (uuidByte r 5 % 16) = hexChar (uuidByte r3 5 % 16) :=
    Option.some.inj (key 12)
  have e5 := uuid_byte_eq_of_hex _ _ (uuidByte_lt r 5) (uuidByte_lt r3 5) a5 b5
  have a6 : hexChar (uuidByte r 6 / 16 % 16) = hexChar (uuidByte r3 6 / 16 % 16) :=
    Option.some.inj (key 14)
  have b6 : hexChar (uuidByte r 6 % 16) = hexChar (uuidByte r3 6 % 16) :=
    Option.some.inj (key 15)
  have e6 := uuid_byte_eq_of_hex _ _ (uuidByte_lt r 6) (uuidByte_lt r3 6) a6 b6
  have a7 : hexChar (uuidByte r 7 / 16 % 16) = hexChar (uuidByte r3 7 / 16 % 16) :=
    Option.some.inj (key 16)
  have b7 : hexChar (uuidByte r 7 % 16) = hexChar (uuidByte r3 7 % 16) :=
    Option.some.inj (key 17)
  have e7 := uuid_byte_eq_of_hex _ _ (uuidByte_lt r 7) (uuidByte_lt r3 7) a7 b7
  have a8 : hexChar (uuidByte r 8 / 16 % 16) = hexChar (uuidByte r3 8 / 16 % 16) :=
    Option.some.inj (key 19)
  have b8 : hexChar (uuidByte r 8 % 16) = hexChar (uuidByte r3 8 % 16) :=
    Option.some.inj (key 20)
  have e8 := uuid_byte_eq_of_hex _ _ (uuidByte_lt r 8) (uuidByte_lt r3 8) a8 b8
  have a9 : hexChar (uuidByte r 9 / 16 % 16) = hexChar (uuidByte r3 9 / 16 % 16) :=
    Option.some.inj (key 21)
  have b9 : hexChar (uuidByte r 9 % 16) = hexChar (uuidByte r3 9 % 16) :=
    Option.some.inj (key 22)
  have e9 := uuid_byte_eq_of_hex _ _ (uuidByte_lt r 9) (uuidByte_lt r3 9) a9 b9
  have a10 : hexChar (uuidByte r 10 / 16 % 16) = hexChar (uuidByte r3 10 / 16 % 16) :=
    Option.some.inj (key 24)
  have b10 : hexChar (uuidByte r 10 % 16) = hexChar (uuidByte r3 10 % 16) :=
    Option.some.inj (key 25)
  have e10 := uuid_byte_eq_of_hex _ _ (uuidByte_lt r 10) (uuidByte_lt r3 10) a10 b10
  have a11 : hexChar (uuidByte r 11 / 16 % 16) = hexChar (uuidByte r3 11 / 16 % 16) :=
    Option.some.inj (key 26)
  have b11 : hexChar (uuidByte r 11 % 16) = hexChar (uuidByte r3 11 % 16) :=
    Option.some.inj (key 27)
  have e11 := uuid_byte_eq_of_hex _ _ (uuidByte_lt r 11) (uuidByte_lt r3 11) a11 b11
  have a12 : hexChar (uuidByte r 12 / 16 % 16) = hexChar (uuidByte r3 12 / 16 % 16) :=
    Option.some.inj (key 28)
  have b12 : hexChar (uuidByte r 12 % 16) = hexChar (uuidByte r3 12 % 16) :=
    Option.some.inj (key 29)
  have e12 := uuid_byte_eq_of_hex _ _ (uuidByte_lt r 12) (uuidByte_lt r3 12) a12 b12
  have a13 : hexChar (uuidByte r 13 / 16 % 16) = hexChar (uuidByte r3 13 / 16 % 16) :=
    Option.some.inj (key 30)
  have b13 : hexChar (uuidByte r 13 % 16) = hexChar (uuidByte r3 13 % 16) :=
    Option.some.inj (key 31)
  have e13 := uuid_byte_eq_of_hex _ _ (uuidByte_lt r 13) (uuidByte_lt r3 13) a13 b13
  have a14 : hexChar (uuidByte r 14 / 16 % 16) = hexChar (uuidByte r3 14 / 16 % 16) :=
    Option.some.inj (key 32)
  have b14 : hexChar (uuidByte r 14 % 16) = hexChar (uuidByte r3 14 % 16) :=
    Option.some.inj (key 33)
  have e14 := uuid_byte_eq_of_hex _ _ (uuidByte_lt r 14) (uuidByte_lt r3 14) a14 b14
  have a15 : hexChar (uuidByte r 15 / 16 % 16) = hexChar (uuidByte r3 15 / 16 % 16) :=
    Option.some.inj (key 34)
  have b15 : hexChar (uuidByte r 15 % 16) = hexChar (uuidByte r3 15 % 16) :=
    Option.some.inj (key 35)
  have e15 := uuid_byte_eq_of_hex _ _ (uuidByte_lt r 15) (uuidByte_lt r3 15) a15 b15
  unfold uuidMask
  rw [e0, e1, e2, e3, e4, e5, e6, e7, e8, e9, e10, e11, e12, e13, e14, e15]

/-! ## Support lemmas for the commands -/

theorem comps_ne_nil_of_extension (p : RPath) (e : String)
    (h : p.extensionOf = some e) : p.comps ≠ [] := by
  intro hnil
  unfold RPath.extensionOf RPath.fileNameOf at h
  rw [hnil] at h
  simp at h

theorem find?_filter_self (l : List (String × Json)) (k0 : String) :
    (l.filter (fun kv => !(kv.1 == k0))).find? (fun kv => kv.1 == k0) = none := by
  rw [List.find?_eq_none]
  intro a ha
  have hmem := (List.mem_filter.mp ha).2
  simp at hmem
  simp [hmem]

theorem banterEnv_eq (channel : ProjectChannel) :
    banterEnv channel = some (banterEnvJson channel) := by
  unfold banterEnv banterEnvJson
  cases channel.scene_path <;> rfl

theorem load_config_world (w : World) :
    (load_config w).2 = { w with fs := w.fs.createDirAll (banterConfigDir w) } := by
  unfold load_config get_config_path
  simp only []
  split
  · split
    · rfl
    · rfl
    · split <;> rfl
  · rfl

theorem updateDoc_null (channel : ProjectChannel) (msp : String) :
    updateDoc .null channel msp
      = some (.obj [("mcpServers", .obj [("banter", banterEntryJson channel msp)])]) := by
  unfold updateDoc
  rw [banterEnv_eq]
  rfl

theorem updateDoc_obj_absent (members : List (String × Json))
    (channel : ProjectChannel) (msp : String)
    (hm : members.find? (fun kv => kv.1 == "mcpServers") = none) :
    updateDoc (.obj members) channel msp
      = some (.obj (objSet (objSet members "mcpServers" (.obj []))
               "mcpServers" (.obj [("banter", banterEntryJson channel msp)]))) := by
  unfold updateDoc
  rw [banterEnv_eq]
  simp [jsonGet, hm, assignKey, vivifyNull, assignKey2, find?_objSet_self, objSet,
        banterEntryJson]

theorem updateDoc_obj_null (members : List (String × Json))
    (channel : ProjectChannel) (msp : String)
    (hm : members.find? (fun kv => kv.1 == "mcpServers") = some ("mcpServers", .null)) :
    updateDoc (.obj members) channel msp
      = some (.obj (objSet members "mcpServers"
               (.obj [("banter", banterEntryJson channel msp)]))) := by
  unfold updateDoc
  rw [banterEnv_eq]
  simp [jsonGet, hm, assignKey, vivifyNull, assignKey2, objSet, banterEntryJson]

theorem updateDoc_obj_obj (members inner : List (String × Json))
    (channel : ProjectChannel) (msp : String)
    (hm : members.find? (fun kv => kv.1 == "mcpServers")
        = some ("mcpServers", .obj inner)) :
    updateDoc (.obj members) channel msp
      = some (.obj (objSet members "mcpServers"
               (.obj (objSet inner "banter" (banterEntryJson channel msp))))) := by
  unfold updateDoc
  rw [banterEnv_eq]
  simp [jsonGet, hm, assignKey, vivifyNull, assignKey2, banterEntryJson]

theorem updateDoc_frame (v0 : Json) (channel : ProjectChannel) (msp : String) (v1 : Json)
    (h : updateDoc v0 channel msp = some v1) :
    (∀ k, k ≠ "mcpServers" → jsonGet v1 k = jsonGet v0 k)
    ∧ ∃ m1, jsonGet v1 "mcpServers" = some m1
        ∧ jsonGet m1 "banter" = some (banterEntryJson channel msp)
        ∧ ∀ k, k ≠ "banter" →
            jsonGet m1 k = (jsonGet v0 "mcpServers").bind (fun m => jsonGet m k) := by
  cases v0 with
  | null =>
      rw [updateDoc_null] at h
      have hv := Option.some.inj h
      subst hv
      refine ⟨?_, ?_⟩
      · intro k hk
        have hne : (("mcpServers" : String) == k) = false := by simp [Ne.symm hk]
        simp [jsonGet, List.find?, hne]
      · refine ⟨.obj [("banter", banterEntryJson channel msp)], ?_, ?_, ?_⟩
        · simp [jsonGet, List.find?]
        · simp [jsonGet, List.find?]
        · intro k hk
          have hne : (("banter" : String) == k) = false := by simp [Ne.symm hk]
          simp [jsonGet, List.find?, hne]
  | bool b =>
      exfalso
      unfold updateDoc at h
      rw [banterEnv_eq] at h
      simp [jsonGet, assignKey, vivifyNull, assignKey2] at h
  | num n =>
      exfalso
      unfold updateDoc at h
      rw [banterEnv_eq] at h
      simp [jsonGet, assignKey, vivifyNull, assignKey2] at h
  | str s =>
      exfalso
      unfold updateDoc at h
      rw [banterEnv_eq] at h
      simp [jsonGet, assignKey, vivifyNull, assignKey2] at h
  | arr items =>
      exfalso
      unfold updateDoc at h
      rw [banterEnv_eq] at h
      simp [jsonGet, assignKey, vivifyNull, assignKey2] at h
  | obj members =>
      cases hm : members.find? (fun kv => kv.1 == "mcpServers") with
      | none =>
          rw [updateDoc_obj_absent members channel msp hm] at h
          have hv := Option.some.inj h
          subst hv
          refine ⟨?_, ?_⟩
          · intro k hk
            rw [jsonGet_objSet_ne _ _ _ _ hk, jsonGet_objSet_ne _ _ _ _ hk]
          · refine ⟨_, jsonGet_objSet_self _ _ _, ?_, ?_⟩
            · simp [jsonGet, List.find?]
            · intro k hk
              have hbk : (("banter" : String) == k) = false := by simp [Ne.symm hk]
              simp [jsonGet, List.find?, hbk, hm]
      | some e =>
          obtain ⟨k0, m0⟩ := e
          have hk0 : k0 = "mcpServers" := by simpa using List.find?_some hm
          subst hk0
          cases m0 with
          | null =>
              rw [updateDoc_obj_null members channel msp hm] at h
              have hv := Option.some.inj h
              subst hv
              refine ⟨?_, ?_⟩
              · intro k hk
                rw [jsonGet_objSet_ne _ _ _ _ hk]
              · refine ⟨_, jsonGet_objSet_self _ _ _, ?_, ?_⟩
                · simp [jsonGet, List.find?]
                · intro k hk
                  have hbk : (("banter" : String) == k) = false := by simp [Ne.symm hk]
                  simp [jsonGet, List.find?, hbk, hm]
          | obj inner =>
              rw [updateDoc_obj_obj members inner channel msp hm] at h
              have hv := Option.some.inj h
              subst hv
              refine ⟨?_, ?_⟩
              · intro k hk
                rw [jsonGet_objSet_ne _ _ _ _ hk]
              · refine ⟨_, jsonGet_objSet_self _ _ _, jsonGet_objSet_self _ _ _, ?_⟩
                intro k hk
                rw [jsonGet_objSet_ne _ _ _ _ hk]
                simp [jsonGet, hm]
          | bool b =>
              exfalso
              unfold updateDoc at h
              rw [banterEnv_eq] at h
              simp [jsonGet, hm, assignKey, vivifyNull, assignKey2] at h
          | num n =>
              exfalso
              unfold updateDoc at h
              rw [banterEnv_eq] at h
              simp [jsonGet, hm, assignKey, vivifyNull, assignKey2] at h
          | str s =>
              exfalso
              unfold updateDoc at h
              rw [banterEnv_eq] at h
              simp [jsonGet, hm, assignKey, vivifyNull, assignKey2] at h
          | arr items =>
              exfalso
              unfold updateDoc at h
              rw [banterEnv_eq] at h
              simp [jsonGet, hm, assignKey, vivifyNull, assignKey2] at h

theorem updateDoc_isSome_of_safe (v : Json) (channel : ProjectChannel) (msp : String)
    (h : updateDocSafe v = true) : (updateDoc v channel msp).isSome = true := by
  cases v with
  | null => simp [updateDoc_null]
  | bool b => simp [updateDocSafe] at h
  | num n => simp [updateDocSafe] at h
  | str s => simp [updateDocSafe] at h
  | arr items => simp [updateDocSafe] at h
  | obj members =>
      cases hm : members.find? (fun kv => kv.1 == "mcpServers") with
      | none => simp [updateDoc_obj_absent members channel msp hm]
      | some e =>
          obtain ⟨k0, m0⟩ := e
          have hk0 : k0 = "mcpServers" := by simpa using List.find?_some hm
          subst hk0
          cases m0 with
          | null => simp [updateDoc_obj_null members channel msp hm]
          | obj inner => simp [updateDoc_obj_obj members inner channel msp hm]
          | bool b => simp [updateDocSafe, hm] at h
          | num n => simp [updateDocSafe, hm] at h
          | str s => simp [updateDocSafe, hm] at h
          | arr items => simp [updateDocSafe, hm] at h

theorem removeBanter_frame (v : Json) (k : String) (hk : k ≠ "mcpServers") :
    jsonGet (removeBanter v) k = jsonGet v k := by
  cases v with
  | null => rfl
  | bool b => rfl
  | num n => rfl
  | str s => rfl
  | arr items => rfl
  | obj members =>
      cases hm : members.find? (fun kv => kv.1 == "mcpServers") with
      | none => simp [removeBanter, hm]
      | some e =>
          obtain ⟨k0, m0⟩ := e
          cases m0 with
          | obj inner =>
              simp only [removeBanter, hm]
              exact jsonGet_objSet_ne _ _ _ _ hk
          | null => simp [removeBanter, hm]
          | bool b => simp [removeBanter, hm]
          | num n => simp [removeBanter, hm]
          | str s => simp [removeBanter, hm]
          | arr items => simp [removeBanter, hm]

theorem removeBanter_no_banter (v : Json) :
    (jsonGet (removeBanter v) "mcpServers").bind (fun m => jsonGet m "banter")
      = none := by
  cases v with
  | null => rfl
  | bool b => rfl
  | num n => rfl
  | str s => rfl
  | arr items => rfl
  | obj members =>
      cases hm : members.find? (fun kv => kv.1 == "mcpServers") with
      | none => simp [removeBanter, hm, jsonGet]
      | some e =>
          obtain ⟨k0, m0⟩ := e
          have hk0 : k0 = "mcpServers" := by simpa using List.find?_some hm
          subst hk0
          cases m0 with
          | obj inner =>
              simp only [removeBanter, hm]
              rw [jsonGet_objSet_self]
              simp [jsonGet, find?_filter_self]
          | null => simp [removeBanter, hm, jsonGet]
          | bool b => simp [removeBanter, hm, jsonGet]
          | num n => simp [removeBanter, hm, jsonGet]
          | str s => simp [removeBanter, hm, jsonGet]
          | arr items => simp [removeBanter, hm, jsonGet]

theorem removeBanter_preserves (v : Json) (k : String) (hk : k ≠ "banter") :
    (jsonGet (removeBanter v) "mcpServers").bind (fun m => jsonGet m k)
      = (jsonGet v "mcpServers").bind (fun m => jsonGet m k) := by
  cases v with
  | null => rfl
  | bool b => rfl
  | num n => rfl
  | str s => rfl
  | arr items => rfl
  | obj members =>
      cases hm : members.find? (fun kv => kv.1 == "mcpServers") with
      | none => simp [removeBanter, hm]
      | some e =>
          obtain ⟨k0, m0⟩ := e
          have hk0 : k0 = "mcpServers" := by simpa using List.find?_some hm
          subst hk0
          cases m0 with
          | obj inner =>
              simp only [removeBanter, hm]
              rw [jsonGet_objSet_self]
              have hrhs : jsonGet (.obj members) "mcpServers" = some (.obj inner) := by
                simp [jsonGet, hm]
              rw [hrhs]
              simp [jsonGet, find?_filter_ne inner "banter" k hk]
          | null => simp [removeBanter, hm]
          | bool b => simp [removeBanter, hm]
          | num n => simp [removeBanter, hm]
          | str s => simp [removeBanter, hm]
          | arr items => simp [removeBanter, hm]

theorem removeBanter_noop (v : Json)
    (h : (jsonGet v "mcpServers").bind (fun m => jsonGet m "banter") = none) :
    removeBanter v = v := by
  cases v with
  | null => rfl
  | bool b => rfl
  | num n => rfl
  | str s => rfl
  | arr items => rfl
  | obj members =>
      cases hm : members.find? (fun kv => kv.1 == "mcpServers") with
      | none => simp [removeBanter, hm]
      | some e =>
          obtain ⟨k0, m0⟩ := e
          have hk0 : k0 = "mcpServers" := by simpa using List.find?_some hm
          subst hk0
          cases m0 with
          | obj inner =>
              have hfind : inner.find? (fun kv => kv.1 == "banter") = none := by
                simpa [jsonGet, hm] using h
              simp only [removeBanter, hm]
              rw [filter_eq_self_of_find?_none inner "banter" hfind]
              rw [objSet_find?_self members "mcpServers" (.obj inner) hm]
          | null => simp [removeBanter, hm]
          | bool b => simp [removeBanter, hm]
          | num n => simp [removeBanter, hm]
          | str s => simp [removeBanter, hm]
          | arr items => simp [removeBanter, hm]

/-! ## Claim theorems -/

/-- Claim C1: for every LauncherConfig value (one with an empty channel
list and one with populated channels included), calling save_config and
then load_config returns a value equal to the one saved. -/
theorem save_load_roundtrip (cfg : LauncherConfig) (w : World) :
    (load_config (save_config cfg w).2).1 = .ok cfg := by
  unfold save_config load_config get_config_path
  simp [banterConfigDir, FileSys.createDirAll, FileSys.writeFile,
        FileSys.existsPath, FileSys.readFile, launcherConfigFromJson_toJson]

/-- Claim C4: when the config file at the fixed per-user path does not
exist, load_config succeeds with the default LauncherConfig (empty
channels, no active channel, the fixed default install path, auto_start
false) and does not create the config file. -/
theorem load_config_missing_defaults (w : World)
    (h : w.fs.existsPath (banterConfigDir w ++ "/launcher-config.json") = false) :
    (load_config w).1
      = .ok { channels := [], active_channel_id := none,
              mcp_server_path := "C:/tools/banter-mcp/dist/index.js",
              auto_start := false }
    ∧ (load_config w).2.fs.files = w.fs.files := by
  have hne : banterConfigDir w ≠ banterConfigDir w ++ "/launcher-config.json" := by
    intro e
    have hlen := congrArg String.length e
    rw [String.length_append] at hlen
    have hs : ("/launcher-config.json" : String).length = 21 := rfl
    omega
  have hex : (w.fs.createDirAll (banterConfigDir w)).existsPath
      (banterConfigDir w ++ "/launcher-config.json") = false := by
    unfold FileSys.existsPath at h ⊢
    unfold FileSys.createDirAll
    simp only [Bool.or_eq_false_iff] at h ⊢
    obtain ⟨h1, h2⟩ := h
    refine ⟨h1, ?_⟩
    simp only [List.contains_cons, Bool.or_eq_false_iff]
    refine ⟨?_, h2⟩
    simp [Ne.symm hne]
  constructor
  · unfold load_config get_config_path
    simp [hex]
  · rw [load_config_world]
    simp [FileSys.createDirAll]

/-- Claim C9: calling load_config when the per-user banter-mcp config
directory does not exist creates that directory as a side effect (but
never the config file: the file map is untouched), because config-path
resolution unconditionally creates the directory. -/
theorem load_config_creates_config_dir (w : World)
    (_h : banterConfigDir w ∉ w.fs.dirs) :
    banterConfigDir w ∈ (load_config w).2.fs.dirs
    ∧ (load_config w).2.fs.files = w.fs.files := by
  rw [load_config_world]
  simp [FileSys.createDirAll]

/-- Claim C8: validate_unity_scene returns false (never an error) for a
missing path or a non-`.unity` extension, and for an existing `.unity`
path returns true exactly when the backslash-normalized path string
contains the literal substring `/Assets/`. -/
theorem validate_unity_scene_spec (path : String) (w : World) :
    (w.fs.existsPath path = false → validate_unity_scene path w = .ok false)
    ∧ (w.fs.existsPath path = true →
        (parsePath path).extensionOf ≠ some "unity" →
        validate_unity_scene path w = .ok false)
    ∧ (w.fs.existsPath path = true →
        (parsePath path).extensionOf = some "unity" →
        validate_unity_scene path w
          = .ok (strContains (normalizeSeps path) "/Assets/")) := by
  refine ⟨?_, ?_, ?_⟩
  · intro h1
    simp [validate_unity_scene, h1]
  · intro h1 h2
    simp [validate_unity_scene, h1, h2]
  · intro h1 h2
    simp [validate_unity_scene, h1, h2]

/-- Claim C3: add_channel checks its preconditions in order — a missing
path fails with the file-not-found message regardless of the other
conditions; an existing path with a non-`.unity` extension fails with the
extension validation message; an existing `.unity` path with no ancestor
directory named `Assets` fails with the project-root validation message —
and in every failure case no channel is produced and the world is
unchanged. -/
theorem add_channel_failure_modes (name scene_path : String) (w : World) :
    (w.fs.existsPath scene_path = false →
      add_channel name scene_path w
        = (.error ("Scene file does not exist: " ++ scene_path), w))
    ∧ (w.fs.existsPath scene_path = true →
       (parsePath scene_path).extensionOf ≠ some "unity" →
      add_channel name scene_path w
        = (.error "Not a valid Unity scene file (must be .unity)", w))
    ∧ (w.fs.existsPath scene_path = true →
       (parsePath scene_path).extensionOf = some "unity" →
       "Assets" ∉ (parsePath scene_path).comps.dropLast →
      add_channel name scene_path w
        = (.error "Could not find Unity project root (no Assets folder in path)", w)) := by
  refine ⟨?_, ?_, ?_⟩
  · intro h1
    simp [add_channel, h1]
  · intro h1 h2
    simp [add_channel, h1, h2]
  · intro h1 h2 h3
    have hne := comps_ne_nil_of_extension (parsePath scene_path) "unity" h2
    have hwalk : assetsWalk (parsePath scene_path).parentPath = none := by
      rw [assetsWalk_parentPath_eq_spec (parsePath scene_path) hne]
      unfold specAssetsProject
      have hidx : idxOfAssets (parsePath scene_path).comps.dropLast.reverse = none := by
        rw [idxOfAssets_eq_none_iff]
        simpa using h3
      rw [hidx]
    simp [add_channel, h1, h2, hwalk]

/-- Claim C2: for every scene path that exists, has extension exactly
`.unity`, and has an ancestor directory literally named `Assets`,
add_channel succeeds with a channel whose unity_project_path renders the
parent of the nearest such `Assets` ancestor, whose scene_path is the
input, whose name is the given name, whose enabled flag is true, and whose
id is the freshly drawn uuid-v4 string — a non-empty string that
determines the masked 128-bit draw (so distinct masked draws give distinct
ids). -/
theorem add_channel_success (name scene_path : String) (w : World)
    (hex : w.fs.existsPath scene_path = true)
    (hunity : (parsePath scene_path).extensionOf = some "unity")
    (hassets : "Assets" ∈ (parsePath scene_path).comps.dropLast) :
    ∃ proj,
      specAssetsProject (parsePath scene_path).absolute
          ((parsePath scene_path).comps.dropLast) = some proj
      ∧ add_channel name scene_path w
          = (.ok { id := uuidV4 (w.rand w.rcount)
                   name := name
                   unity_project_path := renderPath proj
                   scene_path := some scene_path
                   enabled := true },
             { w with rcount := w.rcount + 1 })
      ∧ uuidV4 (w.rand w.rcount) ≠ ""
      ∧ (∀ r1 r2, uuidV4 r1 = uuidV4 r2 → uuidMask r1 = uuidMask r2) := by
  have hne := comps_ne_nil_of_extension (parsePath scene_path) "unity" hunity
  have hmem : "Assets" ∈ (parsePath scene_path).comps.dropLast.reverse := by
    simpa using hassets
  have hidx : idxOfAssets (parsePath scene_path).comps.dropLast.reverse ≠ none := by
    intro hn
    exact (idxOfAssets_eq_none_iff _).mp hn hmem
  obtain ⟨k, hk⟩ : ∃ k, idxOfAssets (parsePath scene_path).comps.dropLast.reverse
      = some k := by
    cases hi : idxOfAssets (parsePath scene_path).comps.dropLast.reverse with
    | none => exact absurd hi hidx
    | some k => exact ⟨k, rfl⟩
  refine ⟨⟨(parsePath scene_path).absolute,
           (parsePath scene_path).comps.dropLast.take
             ((parsePath scene_path).comps.dropLast.length - k - 1)⟩, ?_, ?_,
          uuidV4_ne_empty _, uuidV4_inj_mask⟩
  · unfold specAssetsProject
    rw [hk]
  · have hwalk : assetsWalk (parsePath scene_path).parentPath
        = some ⟨(parsePath scene_path).absolute,
            (parsePath scene_path).comps.dropLast.take
              ((parsePath scene_path).comps.dropLast.length - k - 1)⟩ := by
      rw [assetsWalk_parentPath_eq_spec (parsePath scene_path) hne]
      unfold specAssetsProject
      rw [hk]
    simp [add_channel, hex, hunity, hwalk]

/-- Claim C5: a successful update_claude_mcp_config on a registry document
sets mcpServers.banter to the node launch entry (command "node", args the
given server path, env with the channel's project path and optional scene
path) and preserves every other top-level key and every other entry under
mcpServers unchanged. -/
theorem update_claude_frame (channel : ProjectChannel) (msp : String) (w : World)
    (v0 : Json) (w2 : World)
    (hread : w.fs.readFile (claudeConfigPath w) = some (.jsonText v0))
    (hok : update_claude_mcp_config channel msp w = .ok w2) :
    ∃ v1, w2.fs.readFile (claudeConfigPath w) = some (.jsonText v1)
      ∧ (∀ k, k ≠ "mcpServers" → jsonGet v1 k = jsonGet v0 k)
      ∧ ∃ m1, jsonGet v1 "mcpServers" = some m1
          ∧ jsonGet m1 "banter" = some (banterEntryJson channel msp)
          ∧ ∀ k, k ≠ "banter" →
              jsonGet m1 k = (jsonGet v0 "mcpServers").bind (fun m => jsonGet m k) := by
  have hex := existsPath_of_readFile _ _ _ hread
  unfold update_claude_mcp_config at hok
  simp only [hex, if_true, hread] at hok
  cases hu : updateDoc v0 channel msp with
  | none =>
      rw [hu] at hok
      exact absurd hok (by simp)
  | some v1 =>
      rw [hu] at hok
      have hw := McpOutcome.ok.inj hok
      subst hw
      obtain ⟨hframe, m1, hm1, hbanter, hrest⟩ := updateDoc_frame v0 channel msp v1 hu
      exact ⟨v1, readFile_writeFile_self _ _ _, hframe, m1, hm1, hbanter, hrest⟩

/-- Amended claim C6: update_claude_mcp_config does not panic when the
registry file is missing, unreadable, unparseable (content replaced by an
empty object), or parses to null or to an object whose mcpServers member,
when present, is null or an object; on any other parsed document the
serde_json index operator panics, so totality holds only on this safe
domain. -/
theorem update_claude_total_on_safe_docs (channel : ProjectChannel) (msp : String)
    (w : World)
    (hsafe : ∀ v, w.fs.readFile (claudeConfigPath w) = some (.jsonText v) →
        updateDocSafe v = true) :
    (update_claude_mcp_config channel msp w).isPanic = false := by
  unfold update_claude_mcp_config
  cases hex : w.fs.existsPath (claudeConfigPath w) with
  | false =>
      have hsome := updateDoc_isSome_of_safe (.obj []) channel msp rfl
      cases hu : updateDoc (.obj []) channel msp with
      | none => rw [hu] at hsome; simp at hsome
      | some c => simp [hex, hu, McpOutcome.isPanic]
  | true =>
      cases hr : w.fs.readFile (claudeConfigPath w) with
      | none => simp [hex, hr, McpOutcome.isPanic]
      | some fd =>
          cases fd with
          | rawText s =>
              have hsome := updateDoc_isSome_of_safe (.obj []) channel msp rfl
              cases hu : updateDoc (.obj []) channel msp with
              | none => rw [hu] at hsome; simp at hsome
              | some c => simp [hex, hr, hu, McpOutcome.isPanic]
          | jsonText v =>
              have hsome := updateDoc_isSome_of_safe v channel msp (hsafe v hr)
              cases hu : updateDoc v channel msp with
              | none => rw [hu] at hsome; simp at hsome
              | some c => simp [hex, hr, hu, McpOutcome.isPanic]

/-- Claim C6 counterexample: on a registry file whose content parses to
the number 5, update_claude_mcp_config panics (the serde_json index
operator on a non-object, non-null value), refuting totality over every
prior state. -/
theorem update_claude_panics_on_nonobject :
    (update_claude_mcp_config sampleChannel "/mcp/index.js" numberDocWorld).isPanic
      = true := by
  rfl

/-- Claim C7: remove_claude_mcp_config succeeds without touching the world
when the registry file is missing; fails with a parse error when the file
content is not valid JSON; and when the file parses it writes back the
document with only mcpServers.banter removed — no banter entry remains,
every other top-level key and every other mcpServers entry is preserved,
and a document with no banter entry is written back equal to itself. -/
theorem remove_claude_behavior (w : World) :
    (w.fs.existsPath (claudeConfigPath w) = false →
        remove_claude_mcp_config w = (.ok (), w))
    ∧ (∀ s, w.fs.readFile (claudeConfigPath w) = some (.rawText s) →
        remove_claude_mcp_config w
          = (.error ("Failed to parse Claude config: " ++ s), w))
    ∧ (∀ v, w.fs.readFile (claudeConfigPath w) = some (.jsonText v) →
        remove_claude_mcp_config w
            = (.ok (), { w with fs := (w.fs.writeFile (claudeConfigPath w)
                  (.jsonText (removeBanter v))) })
          ∧ (jsonGet (removeBanter v) "mcpServers").bind (fun m => jsonGet m "banter")
              = none
          ∧ (∀ k, k ≠ "mcpServers" → jsonGet (removeBanter v) k = jsonGet v k)
          ∧ (∀ k, k ≠ "banter" →
              (jsonGet (removeBanter v) "mcpServers").bind (fun m => jsonGet m k)
                = (jsonGet v "mcpServers").bind (fun m => jsonGet m k))
          ∧ ((jsonGet v "mcpServers").bind (fun m => jsonGet m "banter") = none →
              removeBanter v = v)) := by
  refine ⟨?_, ?_, ?_⟩
  · intro h1
    simp [remove_claude_mcp_config, h1]
  · intro s hr
    have hex := existsPath_of_readFile _ _ _ hr
    simp [remove_claude_mcp_config, hex, hr]
  · intro v hr
    have hex := existsPath_of_readFile _ _ _ hr
    refine ⟨by simp [remove_claude_mcp_config, hex, hr],
            removeBanter_no_banter v,
            fun k hk => removeBanter_frame v k hk,
            fun k hk => removeBanter_preserves v k hk,
            fun hnb => removeBanter_noop v hnb⟩

/-- Claim C10: the Assets checks of add_channel and validate_unity_scene
are not equivalent — the existing relative scene path `Assets/Main.unity`
is accepted by add_channel's structural ancestor walk (yielding an empty
project root string), while validate_unity_scene returns false on it
because its normalized string lacks the substring `/Assets/`. -/
theorem assets_checks_disagree :
    (add_channel "X" "Assets/Main.unity" relAssetsWorld).1
        = .ok { id := uuidV4 0, name := "X", unity_project_path := "",
                scene_path := some "Assets/Main.unity", enabled := true }
    ∧ validate_unity_scene "Assets/Main.unity" relAssetsWorld = .ok false := by
  constructor
  · have hwalk : assetsWalk (parsePath "Assets/Main.unity").parentPath
        = some ⟨false, []⟩ := by
      rw [assetsWalk_parentPath_eq_spec (parsePath "Assets/Main.unity") (by decide)]
      decide
    have hex : relAssetsWorld.fs.existsPath "Assets/Main.unity" = true := by decide
    have hext : (parsePath "Assets/Main.unity").extensionOf = some "unity" := by
      decide
    simp [add_channel, hex, hext, hwalk, relAssetsWorld, renderPath, joinComps]
    rfl
  · rfl

/-! ## Witnesses -/

/-- Witness for add_channel_success at the spec's example scene path,
with the concrete project root `/proj` checked explicitly. -/
theorem add_channel_success_witness :
    (∃ proj,
      specAssetsProject (parsePath "/proj/Assets/Scenes/Main.unity").absolute
          ((parsePath "/proj/Assets/Scenes/Main.unity").comps.dropLast) = some proj
      ∧ add_channel "X" "/proj/Assets/Scenes/Main.unity" exampleWorld
          = (.ok { id := uuidV4 (exampleWorld.rand exampleWorld.rcount)
                   name := "X"
                   unity_project_path := renderPath proj
                   scene_path := some "/proj/Assets/Scenes/Main.unity"
                   enabled := true },
             { exampleWorld with rcount := exampleWorld.rcount + 1 })
      ∧ uuidV4 (exampleWorld.rand exampleWorld.rcount) ≠ ""
      ∧ (∀ r1 r2, uuidV4 r1 = uuidV4 r2 → uuidMask r1 = uuidMask r2))
    ∧ specAssetsProject (parsePath "/proj/Assets/Scenes/Main.unity").absolute
        ((parsePath "/proj/Assets/Scenes/Main.unity").comps.dropLast)
        = some ⟨true, ["proj"]⟩
    ∧ renderPath ⟨true, ["proj"]⟩ = "/proj" :=
  ⟨add_channel_success "X" "/proj/Assets/Scenes/Main.unity" exampleWorld
      (by decide) (by decide) (by decide),
   by decide, by decide⟩

/-- Witness for the three add_channel failure modes at concrete paths. -/
theorem add_channel_failure_modes_witness :
    add_channel "X" "/missing.unity" emptyWorld
      = (.error ("Scene file does not exist: " ++ "/missing.unity"), emptyWorld)
    ∧ add_channel "X" "/a/b.scene" noAssetsWorld
      = (.error "Not a valid Unity scene file (must be .unity)", noAssetsWorld)
    ∧ add_channel "X" "/a/b.unity" noAssetsWorld
      = (.error "Could not find Unity project root (no Assets folder in path)",
         noAssetsWorld) :=
  ⟨(add_channel_failure_modes "X" "/missing.unity" emptyWorld).1 (by decide),
   (add_channel_failure_modes "X" "/a/b.scene" noAssetsWorld).2.1
      (by decide) (by decide),
   (add_channel_failure_modes "X" "/a/b.unity" noAssetsWorld).2.2
      (by decide) (by decide) (by decide)⟩

/-- Witness for load_config_missing_defaults on an empty filesystem. -/
theorem load_config_missing_defaults_witness :
    (load_config emptyWorld).1
      = .ok { channels := [], active_channel_id := none,
              mcp_server_path := "C:/tools/banter-mcp/dist/index.js",
              auto_start := false }
    ∧ (load_config emptyWorld).2.fs.files = emptyWorld.fs.files :=
  load_config_missing_defaults emptyWorld (by decide)

/-- Witness for load_config_creates_config_dir on an empty filesystem. -/
theorem load_config_creates_config_dir_witness :
    banterConfigDir emptyWorld ∈ (load_config emptyWorld).2.fs.dirs
    ∧ (load_config emptyWorld).2.fs.files = emptyWorld.fs.files :=
  load_config_creates_config_dir emptyWorld (by decide)

/-- Witness for the three validate_unity_scene cases at concrete paths,
with the substring checks evaluated. -/
theorem validate_unity_scene_spec_witness :
    validate_unity_scene "/missing.unity" emptyWorld = .ok false
    ∧ validate_unity_scene "/a/b.scene" noAssetsWorld = .ok false
    ∧ validate_unity_scene "/proj/Assets/Scenes/Main.unity" exampleWorld
        = .ok (strContains (normalizeSeps "/proj/Assets/Scenes/Main.unity") "/Assets/")
    ∧ strContains (normalizeSeps "/proj/Assets/Scenes/Main.unity") "/Assets/" = true
    ∧ validate_unity_scene "/a/b.unity" noAssetsWorld
        = .ok (strContains (normalizeSeps "/a/b.unity") "/Assets/")
    ∧ strContains (normalizeSeps "/a/b.unity") "/Assets/" = false :=
  ⟨(validate_unity_scene_spec "/missing.unity" emptyWorld).1 (by decide),
   (validate_unity_scene_spec "/a/b.scene" noAssetsWorld).2.1 (by decide) (by decide),
   (validate_unity_scene_spec "/proj/Assets/Scenes/Main.unity" exampleWorld).2.2
      (by decide) (by decide),
   by decide,
   (validate_unity_scene_spec "/a/b.unity" noAssetsWorld).2.2 (by decide) (by decide),
   by decide⟩

/-- Witness for update_claude_frame on a registry with unrelated keys. -/
theorem update_claude_frame_witness :
    ∃ v1, registryWorldAfter.fs.readFile (claudeConfigPath registryWorld)
        = some (.jsonText v1)
      ∧ (∀ k, k ≠ "mcpServers" → jsonGet v1 k = jsonGet regDoc k)
      ∧ ∃ m1, jsonGet v1 "mcpServers" = some m1
          ∧ jsonGet m1 "banter"
              = some (banterEntryJson sampleChannel "/mcp/index.js")
          ∧ ∀ k, k ≠ "banter" →
              jsonGet m1 k = (jsonGet regDoc "mcpServers").bind (fun m => jsonGet m k) :=
  update_claude_frame sampleChannel "/mcp/index.js" registryWorld regDoc
    registryWorldAfter rfl rfl

/-- Witness for the amended totality theorem on a registry whose document
is an object with an object mcpServers member. -/
theorem update_claude_total_on_safe_docs_witness :
    (update_claude_mcp_config sampleChannel "/mcp/index.js" registryWorld).isPanic
      = false :=
  update_claude_total_on_safe_docs sampleChannel "/mcp/index.js" registryWorld
    (fun v hv => by
      have hv2 : regDoc = v := by
        simpa [registryWorld, FileSys.readFile, claudeConfigPath] using hv
      rw [← hv2]
      rfl)

/-- Witness for remove_claude_behavior: missing file, unparseable file,
and a parsed registry document with no banter entry. -/
theorem remove_claude_behavior_witness :
    remove_claude_mcp_config emptyWorld = (.ok (), emptyWorld)
    ∧ remove_claude_mcp_config rawRegistryWorld
        = (.error ("Failed to parse Claude config: " ++ "oops"), rawRegistryWorld)
    ∧ (remove_claude_mcp_config registryWorld
        = (.ok (), { registryWorld with fs := (registryWorld.fs.writeFile
              (claudeConfigPath registryWorld) (.jsonText (removeBanter regDoc))) })
       ∧ (jsonGet (removeBanter regDoc) "mcpServers").bind (fun m => jsonGet m "banter")
           = none
       ∧ (∀ k, k ≠ "mcpServers" → jsonGet (removeBanter regDoc) k = jsonGet regDoc k)
       ∧ (∀ k, k ≠ "banter" →
           (jsonGet (removeBanter regDoc) "mcpServers").bind (fun m => jsonGet m k)
             = (jsonGet regDoc "mcpServers").bind (fun m => jsonGet m k))
       ∧ ((jsonGet regDoc "mcpServers").bind (fun m => jsonGet m "banter") = none →
           removeBanter regDoc = regDoc)) :=
  ⟨(remove_claude_behavior emptyWorld).1 (by decide),
   (remove_claude_behavior rawRegistryWorld).2.1 "oops" rfl,
   (remove_claude_behavior registryWorld).2.2 regDoc rfl⟩
